import Mathlib

/-!
Verification of oh-utils: conversation-ID resolution, API error mapping,
and the local server-profile configuration store.

The definitions below are shallow embeddings of the Python sources:
  * `src/ohc/command_utils.py` — `resolve_conversation_id`
  * `src/ohc/api.py`           — `OpenHandsAPI.search_conversations`,
                                 `get_conversation`, `get_conversation_changes`
  * `src/ohc/config.py`        — `ConfigManager.add_server`, `remove_server`,
                                 `set_default_server`, `get_server_config`
  * `src/ohc/server_commands.py` — URL normalization in the `add` command.

HTTP interaction is modelled by the response the `requests` session delivers
to the code (status code plus parsed JSON body); `raise_for_status` raises
exactly for statuses in [400, 600).
-/

namespace OhUtils

/-- Python string truthiness applied to `dict.get(...)` results:
`x if x else None` maps `None` and the empty string to `None`. -/
def pyTruthy : Option String → Option String
  | some s => if s = "" then none else some s
  | none => none

/-- Python truthiness of an optional string in a boolean context
(`if default_server:`): `None` and `""` are falsy. -/
def pyFalsyOpt : Option String → Bool
  | some s => s = ""
  | none => true

/-- `needle` occurs as a contiguous substring of `hay`. -/
def ContainsSub (needle hay : String) : Prop :=
  ∃ pre post : String, hay = pre ++ needle ++ post

/-! ## Conversation summaries and the ID resolver

`src/ohc/command_utils.py`, `resolve_conversation_id` (lines 55–131).
A conversation from the listing is a JSON dict; the resolver reads keys
`conversation_id` and `title` via `dict.get`, so each is an optional string. -/

/-- One entry of the `results` array returned by `search_conversations`. -/
structure Conv where
  conversation_id : Option String
  title : Option String
deriving DecidableEq, Repr

/-- The user token, split by the outcome of Python `int(token)`:
`num n` stands for a token accepted by `int()` with value `n`,
`str s` for a token on which `int()` raises `ValueError`. -/
inductive Token where
  | num (n : ℤ)
  | str (s : String)
deriving DecidableEq, Repr

/-- The diagnostics `resolve_conversation_id` prints via `click.echo`,
recorded structurally: the out-of-range report carries the requested
number and the bounds `1 - count`; the ambiguity report carries the
token and the listed candidates (ID, title truncated to 40 chars). -/
inductive Diag where
  | outOfRange (requested : ℤ) (lo hi : ℕ)
  | notFound (token : String)
  | ambiguous (token : String) (candidates : List (String × String))
deriving DecidableEq, Repr

/-- Result of one call to `resolve_conversation_id`: the returned value,
the diagnostics printed, and how many `search_conversations` calls the
function performed. -/
structure ResolveResult where
  result : Option String
  diags : List Diag
  apiCalls : ℕ
deriving DecidableEq, Repr

/-- Python `str.startswith`: character-wise prefix test. -/
def pyStartsWith (s pre : String) : Bool :=
  pre.toList.isPrefixOf s.toList

/-- The list comprehension of `resolve_conversation_id` (lines 102–106):
conversations whose `conversation_id` (defaulted to `""`) starts with
the token. -/
def prefixMatches (listing : List Conv) (s : String) : List Conv :=
  listing.filter (fun c => pyStartsWith (c.conversation_id.getD "") s)

/-- Shallow embedding of `resolve_conversation_id`
(`src/ohc/command_utils.py` lines 55–131).  `listing` is the `results`
array of the single `search_conversations(limit=100)` call the function
makes on the numeric and prefix paths. -/
def resolve_conversation_id (listing : List Conv) : Token → ResolveResult
  | .num n =>
    if h : n < 1 ∨ (listing.length : ℤ) < n then
      { result := none
        diags := [.outOfRange n 1 listing.length]
        apiCalls := 1 }
    else
      let conv_data := listing.get ⟨(n - 1).toNat, by omega⟩
      { result := pyTruthy conv_data.conversation_id
        diags := []
        apiCalls := 1 }
  | .str s =>
    if s.length < 36 then
      let matchList := prefixMatches listing s
      if matchList.length = 0 then
        { result := none, diags := [.notFound s], apiCalls := 1 }
      else if matchList.length > 1 then
        { result := none
          diags := [.ambiguous s ((matchList.take 5).map
            (fun m => (m.conversation_id.getD "",
                       (m.title.getD "Untitled").take 40)))]
          apiCalls := 1 }
      else
        { result := pyTruthy (matchList.head?.bind (fun m => m.conversation_id))
          diags := []
          apiCalls := 1 }
    else
      { result := some s, diags := [], apiCalls := 0 }

/-- A listing is well formed when every conversation dict carries a
non-empty `conversation_id` string, as the spec's data model requires
(`ConversationSummary.conversation_id : UUID-string`). -/
def WFListing (listing : List Conv) : Prop :=
  ∀ c ∈ listing, c.conversation_id ≠ none ∧ c.conversation_id ≠ some ""

instance (listing : List Conv) : Decidable (WFListing listing) := by
  unfold WFListing; infer_instance

/-! ## HTTP API client error mapping (`src/ohc/api.py`) -/

/-- The HTTP response the `requests` session hands back to the client
code: the status code and the parsed JSON body. -/
structure HttpResp (α : Type) where
  status : ℕ
  body : α
deriving DecidableEq, Repr

/-- `requests.Response.raise_for_status` raises `HTTPError` exactly for
client- and server-error statuses. -/
def errStatus (s : ℕ) : Prop := 400 ≤ s ∧ s < 600

instance (s : ℕ) : Decidable (errStatus s) := by
  unfold errStatus; infer_instance

/-- How a call into `OpenHandsAPI` fails: either the raw
`requests.exceptions.HTTPError` propagated unchanged (carrying the
response status), or a Python `Exception(msg)` raised by the client. -/
inductive ApiError where
  | httpError (status : ℕ)
  | message (msg : String)
deriving DecidableEq, Repr

/-- The literal message of the `Exception` raised by
`OpenHandsAPI.search_conversations` on HTTP 401 (`src/ohc/api.py`
lines 44–48). -/
def permissionMsg : String :=
  "API key does not have permission to access conversations. " ++
  "Please ensure you're using a full API key from your OpenHands settings."

/-- Shallow embedding of `OpenHandsAPI.search_conversations`
(`src/ohc/api.py` lines 32–49): `raise_for_status`, translate 401 into
the permission `Exception`, propagate every other `HTTPError` unchanged,
otherwise return the parsed body. -/
def search_conversations (resp : HttpResp α) : Except ApiError α :=
  if errStatus resp.status then
    if resp.status = 401 then .error (.message permissionMsg)
    else .error (.httpError resp.status)
  else .ok resp.body

/-- Shallow embedding of `OpenHandsAPI.get_conversation`
(`src/ohc/api.py` lines 51–56): `raise_for_status`, then return
`response.json()` as-is.  The body type is `Option β` so that a literal
`null` body (parsed by Python as `None`) is `none`. -/
def get_conversation (resp : HttpResp (Option β)) : Except ApiError (Option β) :=
  if errStatus resp.status then .error (.httpError resp.status)
  else .ok resp.body

/-- One entry of the git-changes response (`FileChangeEntry`). -/
structure FileChangeEntry where
  path : String
  status : String
deriving DecidableEq, Repr

/-- Shallow embedding of `OpenHandsAPI.get_conversation_changes`
(`src/ohc/api.py` lines 96–113).  Inside the `try`: status 404 returns
`[]` before `raise_for_status`; status 500 raises
`Exception("Git repository not available or corrupted")`, which the
outer `except Exception` wraps into `"API call failed - ..."`; any
other error status raises `HTTPError`, which the `except HTTPError`
clause turns into `"Failed to get changes: HTTP <status>"` (raised from
the except clause, hence not re-wrapped). -/
def get_conversation_changes (resp : HttpResp (List FileChangeEntry)) :
    Except String (List FileChangeEntry) :=
  if resp.status = 404 then .ok []
  else if resp.status = 500 then
    .error ("API call failed - " ++ "Git repository not available or corrupted")
  else if errStatus resp.status then
    .error ("Failed to get changes: HTTP " ++ toString resp.status)
  else .ok resp.body

/-! ## Local configuration store (`src/ohc/config.py`)

The JSON document `{"servers": {name: {"url", "api_key", "default"}},
"default_server": name|null}` is modelled with the servers dict as an
insertion-ordered association list, matching Python dict semantics:
assigning an existing key keeps its position, a new key is appended,
`del` removes it, and iteration follows insertion order. -/

/-- One server profile as stored in the config file. -/
structure ServerEntry where
  url : String
  api_key : String
  default : Bool
deriving DecidableEq, Repr

/-- The configuration document. -/
structure Config where
  servers : List (String × ServerEntry)
  default_server : Option String
deriving DecidableEq, Repr

/-- The configuration `load_config` returns when no file exists. -/
def emptyConfig : Config := { servers := [], default_server := none }

/-- Python dict assignment `d[k] = v`: replace in place if the key is
present, append otherwise. -/
def setKey (l : List (String × ServerEntry)) (k : String) (v : ServerEntry) :
    List (String × ServerEntry) :=
  if l.any (fun p => p.1 = k) then
    l.map (fun p => if p.1 = k then (k, v) else p)
  else l ++ [(k, v)]

/-- Python `k in d`. -/
def hasKey (l : List (String × ServerEntry)) (k : String) : Bool :=
  l.any (fun p => p.1 = k)

/-- Shallow embedding of `ConfigManager.add_server`
(`src/ohc/config.py` lines 101–126). -/
def add_server (cfg : Config) (name url api_key : String)
    (set_default : Bool) : Config :=
  let servers1 := setKey cfg.servers name
    { url := url, api_key := api_key, default := set_default }
  if set_default then
    let servers2 := servers1.map
      (fun p => (p.1, { p.2 with default := false }))
    { servers := setKey servers2 name
        { url := url, api_key := api_key, default := true }
      default_server := some name }
  else if pyFalsyOpt cfg.default_server ∧ servers1.length = 1 then
    { servers := setKey servers1 name
        { url := url, api_key := api_key, default := true }
      default_server := some name }
  else
    { servers := servers1, default_server := cfg.default_server }

/-- Shallow embedding of `ConfigManager.remove_server`
(`src/ohc/config.py` lines 128–152); returns the Python result
(`True` iff the server was found and removed) with the saved config. -/
def remove_server (cfg : Config) (name : String) : Bool × Config :=
  if ¬ hasKey cfg.servers name then (false, cfg)
  else
    let was_default :=
      (((cfg.servers.find? (fun p => p.1 = name)).map
        (fun p => p.2.default)).getD false)
    let servers1 := cfg.servers.filter (fun p => ¬ p.1 = name)
    if was_default then
      match servers1.head? with
      | some first =>
        (true, { servers := setKey servers1 first.1
                   { first.2 with default := true }
                 default_server := some first.1 })
      | none => (true, { servers := servers1, default_server := none })
    else (true, { servers := servers1, default_server := cfg.default_server })

/-- Shallow embedding of `ConfigManager.set_default_server`
(`src/ohc/config.py` lines 154–170). -/
def set_default_server (cfg : Config) (name : String) : Bool × Config :=
  if ¬ hasKey cfg.servers name then (false, cfg)
  else
    let servers2 := cfg.servers.map
      (fun p => (p.1, { p.2 with default := false }))
    (true, { servers := setKey servers2 name
               (match cfg.servers.find? (fun p => p.1 = name) with
                | some p => { p.2 with default := true }
                | none => { url := "", api_key := "", default := true })
             default_server := some name })

/-- The no-name branch of `ConfigManager.get_server_config`
(`src/ohc/config.py` lines 90–99): the default server when it is set
(truthy) and present, else the first stored server, else `None`. -/
def fallbackLookup (cfg : Config) : Option ServerEntry :=
  match cfg.default_server with
  | some d =>
    if d ≠ "" ∧ hasKey cfg.servers d then
      (cfg.servers.find? (fun p => p.1 = d)).map (fun p => p.2)
    else (cfg.servers.head?).map (fun p => p.2)
  | none => (cfg.servers.head?).map (fun p => p.2)

/-- Shallow embedding of `ConfigManager.get_server_config`
(`src/ohc/config.py` lines 81–99): with a (truthy) name, plain dict
lookup; otherwise the default server if set and present, else the first
stored server if any, else `None`. -/
def get_server_config (cfg : Config) (server_name : Option String) :
    Option ServerEntry :=
  match server_name with
  | some n =>
    if n ≠ "" then (cfg.servers.find? (fun p => p.1 = n)).map (fun p => p.2)
    else fallbackLookup cfg
  | none => fallbackLookup cfg

/-- Python `str.endswith`: character-wise suffix test. -/
def pyEndsWith (s suf : String) : Bool :=
  suf.toList.isSuffixOf s.toList

/-- URL normalization performed by the `ohc server add` command before
storing (`src/ohc/server_commands.py` lines 41–46). -/
def normalize_add_url (url : String) : String :=
  if ¬ pyEndsWith url "/api/" ∧ ¬ pyEndsWith url "/api" then
    if pyEndsWith url "/" then url ++ "api/"
    else url ++ "/api/"
  else url

/-- A mutation of the config store, as issued by the CLI commands. -/
inductive Mutation where
  | add (name url api_key : String) (set_default : Bool)
  | remove (name : String)
  | setDefault (name : String)
deriving DecidableEq, Repr

/-- Apply one mutation (the Boolean results are discarded; the saved
config is kept). -/
def applyMutation (cfg : Config) : Mutation → Config
  | .add name url api_key sd => add_server cfg name url api_key sd
  | .remove name => (remove_server cfg name).2
  | .setDefault name => (set_default_server cfg name).2

/-- Apply a sequence of mutations left to right. -/
def applyMutations (cfg : Config) (ms : List Mutation) : Config :=
  ms.foldl applyMutation cfg

/-- At most one stored profile carries `default = true`. -/
def atMostOneDefault (cfg : Config) : Prop :=
  (cfg.servers.filter (fun p => p.2.default)).length ≤ 1

instance (cfg : Config) : Decidable (atMostOneDefault cfg) := by
  unfold atMostOneDefault; infer_instance

/-- `default_server` names the profile flagged default, or is null. -/
def defaultPointerOK (cfg : Config) : Prop :=
  cfg.default_server = none ∨
    ∃ p ∈ cfg.servers, p.2.default = true ∧ cfg.default_server = some p.1

instance (cfg : Config) : Decidable (defaultPointerOK cfg) := by
  unfold defaultPointerOK; infer_instance

/-- Keys of the stored servers dict are pairwise distinct (Python dicts
cannot hold duplicate keys). -/
def keysNodup (cfg : Config) : Prop :=
  (cfg.servers.map Prod.fst).Nodup

/-- Every profile flagged default is the one `default_server` names. -/
def flaggedPointed (cfg : Config) : Prop :=
  ∀ p ∈ cfg.servers, p.2.default = true → cfg.default_server = some p.1

/-- The inductive store invariant maintained by every mutation. -/
def StoreInv (cfg : Config) : Prop :=
  keysNodup cfg ∧ flaggedPointed cfg

/-- Sample listing used to instantiate the resolver theorems. -/
def sampleListing : List Conv :=
  [{ conversation_id := some "aaa-1111", title := some "first" },
   { conversation_id := some "aab-2222", title := none },
   { conversation_id := some "abc-3333", title := some "third" }]

/-- Sample config used to instantiate the store theorems. -/
def sampleConfig : Config :=
  { servers := [("alpha", { url := "https://a/api/", api_key := "ka", default := true }),
                ("beta", { url := "https://b/api/", api_key := "kb", default := false })]
    default_server := some "ghost" }

/-! ## Theorems -/

/-- On a well-formed conversation-ID option the Python idiom
`conversation_id if conversation_id else None` is the identity. -/
theorem pyTruthy_of_wf {o : Option String} (h1 : o ≠ none)
    (h2 : o ≠ some "") : pyTruthy o = o := by
  cases o with
  | none => exact absurd rfl h1
  | some s =>
    have hs : s ≠ "" := fun h => h2 (by simp [h])
    simp [pyTruthy, hs]

/-- Reduction of the numeric path of `resolve_conversation_id` when the
requested number is within bounds. -/
theorem resolve_num_in_range (listing : List Conv) (n : ℤ)
    (h : ¬(n < 1 ∨ (listing.length : ℤ) < n)) :
    resolve_conversation_id listing (.num n) =
      { result := pyTruthy
          (listing.get ⟨(n - 1).toNat, by omega⟩).conversation_id
        diags := [], apiCalls := 1 } := by
  simp only [resolve_conversation_id]
  rw [dif_neg h]

/-- C1: for a token parsing as integer `n` against a well-formed listing
of `count` conversations fetched once (`apiCalls = 1`): if
`n = i + 1` for a valid 0-based index `i` (that is, `n ∈ [1, count]`),
the resolver returns the `conversation_id` of the conversation at
1-based position `n` and prints nothing; if `n` is outside `[1, count]`,
it returns no result and reports the requested number with the exact
bounds `1` and `count`. -/
theorem resolve_numeric_positions (listing : List Conv) (n : ℤ)
    (hwf : WFListing listing) :
    (∀ i : Fin listing.length, n = (i : ℕ) + 1 →
      resolve_conversation_id listing (.num n) =
        { result := (listing.get i).conversation_id
          diags := [], apiCalls := 1 }) ∧
    ((n < 1 ∨ (listing.length : ℤ) < n) →
      resolve_conversation_id listing (.num n) =
        { result := none
          diags := [Diag.outOfRange n 1 listing.length]
          apiCalls := 1 }) := by
  constructor
  · intro i hn
    have hbound : ¬(n < 1 ∨ (listing.length : ℤ) < n) := by
      have := i.isLt; omega
    rw [resolve_num_in_range listing n hbound]
    have hidx : (⟨(n - 1).toNat, by omega⟩ : Fin listing.length) = i := by
      apply Fin.ext
      simp only []
      omega
    rw [hidx]
    obtain ⟨h1, h2⟩ := hwf (listing.get i) (listing.get_mem i.1 i.2)
    rw [pyTruthy_of_wf h1 h2]
  · intro hout
    simp only [resolve_conversation_id]
    rw [dif_pos hout]

/-- Witness for C1 at a concrete listing: position 2 resolves to the
second conversation's ID; position 5 is out of range `1-3`. -/
theorem resolve_numeric_positions_witness :
    resolve_conversation_id sampleListing (.num 2) =
      { result := some "aab-2222", diags := [], apiCalls := 1 } ∧
    resolve_conversation_id sampleListing (.num 5) =
      { result := none, diags := [Diag.outOfRange 5 1 3], apiCalls := 1 } := by
  constructor
  · exact ((resolve_numeric_positions sampleListing 2 (by decide)).1
      ⟨1, by decide⟩ (by decide)).trans (by decide)
  · exact ((resolve_numeric_positions sampleListing 5 (by decide)).2
      (by decide)).trans (by decide)

/-- C2: for a non-integer token shorter than 36 characters against a
well-formed listing, the resolver filters the fetched conversations by
ID prefix: no match yields no result with a not-found diagnostic;
exactly one match yields that conversation's full ID; several matches
yield no result and an ambiguity report listing exactly
`min(matches, 5)` candidates. -/
theorem resolve_prefix_matching (listing : List Conv) (s : String)
    (hwf : WFListing listing) (hlen : s.length < 36) :
    (prefixMatches listing s = [] →
      resolve_conversation_id listing (.str s) =
        { result := none, diags := [Diag.notFound s], apiCalls := 1 }) ∧
    (∀ m, prefixMatches listing s = [m] →
      resolve_conversation_id listing (.str s) =
        { result := m.conversation_id, diags := [], apiCalls := 1 }) ∧
    ((prefixMatches listing s).length > 1 →
      (resolve_conversation_id listing (.str s)).result = none ∧
      ∃ cands,
        (resolve_conversation_id listing (.str s)).diags =
          [Diag.ambiguous s cands] ∧
        cands.length = Nat.min (prefixMatches listing s).length 5) := by
  refine ⟨?_, ?_, ?_⟩
  · intro hm
    simp [resolve_conversation_id, hlen, hm]
  · intro m hm
    have hmem : m ∈ listing := by
      have : m ∈ prefixMatches listing s := by
        rw [hm]; exact List.mem_singleton_self m
      exact List.mem_of_mem_filter this
    obtain ⟨h1, h2⟩ := hwf m hmem
    have hid := pyTruthy_of_wf h1 h2
    simp [resolve_conversation_id, hlen, hm, hid]
  · intro hm
    have h0 : ¬ (prefixMatches listing s).length = 0 := by omega
    constructor
    · simp [resolve_conversation_id, hlen, h0, hm]
    · refine ⟨((prefixMatches listing s).take 5).map
        (fun m => (m.conversation_id.getD "",
                   (m.title.getD "Untitled").take 40)), ?_, ?_⟩
      · simp [resolve_conversation_id, hlen, h0, hm]
      · simp [List.length_take, Nat.min_comm]

/-- Witness for C2 at a concrete listing: a not-found prefix, a uniquely
matching prefix, and a two-way ambiguous prefix. -/
theorem resolve_prefix_matching_witness :
    resolve_conversation_id sampleListing (.str "zz") =
      { result := none, diags := [Diag.notFound "zz"], apiCalls := 1 } ∧
    resolve_conversation_id sampleListing (.str "ab") =
      { result := some "abc-3333", diags := [], apiCalls := 1 } ∧
    ((resolve_conversation_id sampleListing (.str "aa")).result = none ∧
     ∃ cands,
       (resolve_conversation_id sampleListing (.str "aa")).diags =
         [Diag.ambiguous "aa" cands] ∧
       cands.length = Nat.min (prefixMatches sampleListing "aa").length 5) := by
  refine ⟨?_, ?_, ?_⟩
  · exact (resolve_prefix_matching sampleListing "zz" (by decide)
      (by decide)).1 (by decide)
  · exact ((resolve_prefix_matching sampleListing "ab" (by decide)
      (by decide)).2.1
      { conversation_id := some "abc-3333", title := some "third" }
      (by decide)).trans (by decide)
  · exact (resolve_prefix_matching sampleListing "aa" (by decide)
      (by decide)).2.2 (by decide)

/-- C3: a non-integer token of length at least 36 is returned unchanged
with no API call, and the outcome does not depend on the remote
listing. -/
theorem resolve_full_id_passthrough (listing listing2 : List Conv)
    (s : String) (hlen : 36 ≤ s.length) :
    resolve_conversation_id listing (.str s) =
      { result := some s, diags := [], apiCalls := 0 } ∧
    resolve_conversation_id listing (.str s) =
      resolve_conversation_id listing2 (.str s) := by
  have h : ¬ s.length < 36 := by omega
  constructor
  · simp [resolve_conversation_id, h]
  · simp [resolve_conversation_id, h]

/-- Witness for C3: a 36-character token resolves to itself with zero
API calls against two different listings. -/
theorem resolve_full_id_passthrough_witness :
    resolve_conversation_id sampleListing
      (.str "0123456789abcdef0123456789abcdef0123") =
      { result := some "0123456789abcdef0123456789abcdef0123"
        diags := [], apiCalls := 0 } ∧
    resolve_conversation_id sampleListing
      (.str "0123456789abcdef0123456789abcdef0123") =
      resolve_conversation_id []
        (.str "0123456789abcdef0123456789abcdef0123") :=
  resolve_full_id_passthrough sampleListing []
    "0123456789abcdef0123456789abcdef0123" (by decide)

/-- C4: on HTTP 401, `search_conversations` fails with the permission
`Exception` (not the raw `HTTPError`) whose message contains
"permission" and "full API key"; on every other HTTP error status the
raw transport error propagates unchanged. -/
theorem search_conversations_error_mapping {α : Type} (b : α) (s : ℕ)
    (h4 : 400 ≤ s) (h6 : s < 600) (hne : s ≠ 401) :
    search_conversations ({ status := s, body := b } : HttpResp α) =
      .error (.httpError s) ∧
    search_conversations ({ status := 401, body := b } : HttpResp α) =
      .error (.message permissionMsg) ∧
    ContainsSub "permission" permissionMsg ∧
    ContainsSub "full API key" permissionMsg := by
  refine ⟨?_, ?_, ?_, ?_⟩
  · have herr : errStatus s := ⟨h4, h6⟩
    simp [search_conversations, herr, hne]
  · simp [search_conversations, errStatus]
  · exact ⟨"API key does not have ",
      " to access conversations. Please ensure you're using a full API key " ++
      "from your OpenHands settings.", by decide⟩
  · exact ⟨"API key does not have permission to access conversations. " ++
      "Please ensure you're using a ", " from your OpenHands settings.",
      by decide⟩

/-- Witness for C4 at status 403 with an empty listing body. -/
theorem search_conversations_error_mapping_witness :
    search_conversations ({ status := 403, body := ([] : List Conv) } :
        HttpResp (List Conv)) = .error (.httpError 403) ∧
    search_conversations ({ status := 401, body := ([] : List Conv) } :
        HttpResp (List Conv)) = .error (.message permissionMsg) ∧
    ContainsSub "permission" permissionMsg ∧
    ContainsSub "full API key" permissionMsg :=
  search_conversations_error_mapping ([] : List Conv) 403
    (by decide) (by decide) (by decide)

/-- C5 counterexample: HTTP 304 is a non-2xx status other than 404 and
500, yet `get_conversation_changes` returns the body as a success
rather than raising a changes-fetch-failed error —
`raise_for_status` raises only for statuses in [400, 600), so the
claim's "every other non-2xx status" fails at 304. -/
theorem get_conversation_changes_non2xx_counterexample :
    ¬ (200 ≤ 304 ∧ 304 < 300) ∧ 304 ≠ 404 ∧ 304 ≠ 500 ∧
    get_conversation_changes
      { status := 304, body := [{ path := "a.py", status := "M" }] } =
      .ok [{ path := "a.py", status := "M" }] := by
  refine ⟨by decide, by decide, by decide, ?_⟩
  simp [get_conversation_changes, errStatus]

/-- C5 (amended): `get_conversation_changes` returns the empty list on
HTTP 404 (not an error); on HTTP 500 it raises an error carrying the
repository-unavailable message; on every other status in the HTTP
error range [400, 600) it raises an error that carries the status
code; and on any status outside that error range — including non-2xx
statuses such as 304 — it returns the parsed body as a success. -/
theorem get_conversation_changes_status_mapping
    (b : List FileChangeEntry) (s t : ℕ) (h4 : 400 ≤ s) (h6 : s < 600)
    (h404 : s ≠ 404) (h500 : s ≠ 500) (ht : ¬ errStatus t) :
    get_conversation_changes { status := 404, body := b } = .ok [] ∧
    (∃ m, get_conversation_changes { status := 500, body := b } =
        .error m ∧ ContainsSub "repository not available" m) ∧
    get_conversation_changes { status := s, body := b } =
      .error ("Failed to get changes: HTTP " ++ toString s) ∧
    get_conversation_changes { status := t, body := b } = .ok b := by
  refine ⟨?_, ?_, ?_, ?_⟩
  · simp [get_conversation_changes]
  · refine ⟨"API call failed - " ++ "Git repository not available or corrupted",
      by simp [get_conversation_changes], "API call failed - Git ",
      " or corrupted", by decide⟩
  · have herr : errStatus s := ⟨h4, h6⟩
    simp [get_conversation_changes, h404, h500, herr]
  · have ht404 : t ≠ 404 := fun h => ht (h ▸ by decide)
    have ht500 : t ≠ 500 := fun h => ht (h ▸ by decide)
    simp [get_conversation_changes, ht404, ht500, ht]

/-- Witness for C5 at error status 418 and non-error status 304 with an
empty body. -/
theorem get_conversation_changes_status_mapping_witness :
    get_conversation_changes { status := 404, body := [] } = .ok [] ∧
    (∃ m, get_conversation_changes { status := 500, body := [] } =
        .error m ∧ ContainsSub "repository not available" m) ∧
    get_conversation_changes { status := 418, body := [] } =
      .error ("Failed to get changes: HTTP " ++ toString 418) ∧
    get_conversation_changes { status := 304, body := [] } = .ok [] :=
  get_conversation_changes_status_mapping [] 418 304
    (by decide) (by decide) (by decide) (by decide) (by decide)

/-- C6 (code bug): on an HTTP 200 response whose body is literally
`null`, `get_conversation` does not fail with a not-found error — it
returns the parsed `None` as a success.  The repository's own test
(`test_api.py::test_get_conversation_not_found_none_response`) expects
an exception containing "Conversation '123' not found" here. -/
theorem get_conversation_null_body_returns_ok :
    get_conversation ({ status := 200, body := none } :
        HttpResp (Option Conv)) = .ok none := by
  simp [get_conversation, errStatus]

/-- C7 counterexample: the input form "https://x/api" is stored
unchanged, without a trailing slash, so the stored url neither ends in
"/api/" nor agrees with the url stored for "https://x". -/
theorem add_url_normalization_counterexample :
    (get_server_config
        (add_server emptyConfig "s" (normalize_add_url "https://x/api") "k" false)
        (some "s")).map (fun e => e.url) = some "https://x/api" ∧
    pyEndsWith "https://x/api" "/api/" = false ∧
    normalize_add_url "https://x/api" ≠ normalize_add_url "https://x" := by
  decide

/-- C7 (amended): the input forms "https://x", "https://x/" and
"https://x/api/" all store the identical url "https://x/api/", which
ends in "/api/"; the form "https://x/api" alone is stored unchanged as
"https://x/api" (no trailing slash). -/
theorem add_url_normalization_amended :
    (get_server_config
        (add_server emptyConfig "s" (normalize_add_url "https://x") "k" false)
        (some "s")).map (fun e => e.url) = some "https://x/api/" ∧
    (get_server_config
        (add_server emptyConfig "s" (normalize_add_url "https://x/") "k" false)
        (some "s")).map (fun e => e.url) = some "https://x/api/" ∧
    (get_server_config
        (add_server emptyConfig "s" (normalize_add_url "https://x/api/") "k" false)
        (some "s")).map (fun e => e.url) = some "https://x/api/" ∧
    (get_server_config
        (add_server emptyConfig "s" (normalize_add_url "https://x/api") "k" false)
        (some "s")).map (fun e => e.url) = some "https://x/api" ∧
    pyEndsWith "https://x/api/" "/api/" = true := by
  decide

/-- C8 counterexample: re-adding the existing default profile "A" with
`set_default = false` overwrites its default flag but leaves
`default_server = "A"`, so no profile is flagged default while the
pointer is non-null — the claimed invariant fails after this mutation
sequence from the empty store. -/
theorem store_default_invariant_counterexample :
    ¬ (atMostOneDefault
        (applyMutations emptyConfig
          [.add "A" "u" "k" true, .add "A" "u2" "k2" false]) ∧
       defaultPointerOK
        (applyMutations emptyConfig
          [.add "A" "u" "k" true, .add "A" "u2" "k2" false])) := by
  decide

/-- C9: after `add(A, default=true)`, `add(B, default=true)`,
`remove(B)` from the empty store, profile A is the sole profile and the
default again; removing the last (default) profile leaves
`default_server` null; and `remove` returns true exactly when the named
profile was present. -/
theorem remove_server_reassigns_default :
    applyMutations emptyConfig
        [.add "A" "uA" "kA" true, .add "B" "uB" "kB" true, .remove "B"] =
      { servers := [("A", { url := "uA", api_key := "kA", default := true })]
        default_server := some "A" } ∧
    applyMutations emptyConfig [.add "A" "uA" "kA" true, .remove "A"] =
      { servers := [], default_server := none } ∧
    ∀ (cfg : Config) (name : String),
      (remove_server cfg name).1 = hasKey cfg.servers name := by
  refine ⟨by decide, by decide, ?_⟩
  intro cfg name
  by_cases h : hasKey cfg.servers name
  · simp only [remove_server, h, not_true_eq_false, if_false]
    split
    · split <;> rfl
    · rfl
  · simp [remove_server, h]

/-- C10: with no server name requested, when `default_server` is null
or names a profile absent from the store, `get_server_config` returns
the first stored profile in insertion order, and returns nothing
exactly when the store is empty. -/
theorem get_server_config_default_fallback (cfg : Config)
    (h : cfg.default_server = none ∨
      ∃ n, cfg.default_server = some n ∧ hasKey cfg.servers n = false) :
    get_server_config cfg none = (cfg.servers.head?).map (fun p => p.2) ∧
    (get_server_config cfg none = none ↔ cfg.servers = []) := by
  have hfb : fallbackLookup cfg = (cfg.servers.head?).map (fun p => p.2) := by
    rcases h with h | ⟨n, hn, hk⟩
    · simp [fallbackLookup, h]
    · simp [fallbackLookup, hn, hk]
  constructor
  · simpa [get_server_config] using hfb
  · rw [show get_server_config cfg none = fallbackLookup cfg from rfl, hfb]
    cases cfg.servers <;> simp

/-- Witness for C10: a store whose `default_server` names the absent
profile "ghost" hands back its first profile, and is non-empty. -/
theorem get_server_config_default_fallback_witness :
    get_server_config sampleConfig none =
      some { url := "https://a/api/", api_key := "ka", default := true } ∧
    (get_server_config sampleConfig none = none ↔
      sampleConfig.servers = []) := by
  have h := get_server_config_default_fallback sampleConfig
    (Or.inr ⟨"ghost", rfl, by decide⟩)
  exact ⟨h.1.trans (by decide), h.2⟩

/-- Membership after a Python dict assignment: an element of the
updated dict is the assigned pair or an old pair with a different key. -/
theorem mem_setKey {l : List (String × ServerEntry)} {k : String}
    {v : ServerEntry} {p : String × ServerEntry} (hp : p ∈ setKey l k v) :
    p = (k, v) ∨ (p ∈ l ∧ p.1 ≠ k) := by
  unfold setKey at hp
  split at hp
  case isTrue h =>
    rcases List.mem_map.1 hp with ⟨q, hq, hfq⟩
    by_cases hqk : q.1 = k
    · left
      rw [← hfq]
      simp [hqk]
    · right
      rw [← hfq]
      simp only [hqk, if_false]
      exact ⟨hq, hqk⟩
  case isFalse h =>
    rcases List.mem_append.1 hp with h1 | h1
    · right
      refine ⟨h1, fun hpk => h ?_⟩
      exact List.any_eq_true.2 ⟨p, h1, by simp [hpk]⟩
    · left
      simpa using h1

/-- The assigned pair is always present after a dict assignment. -/
theorem self_mem_setKey (l : List (String × ServerEntry)) (k : String)
    (v : ServerEntry) : (k, v) ∈ setKey l k v := by
  unfold setKey
  split
  case isTrue h =>
    rcases List.any_eq_true.1 h with ⟨q, hq, hqk⟩
    have hqk2 : q.1 = k := by simpa using hqk
    exact List.mem_map.2 ⟨q, hq, by simp [hqk2]⟩
  case isFalse h =>
    simp

/-- Dict assignment keeps the key list unchanged when the key was
present, and appends the key otherwise. -/
theorem keys_setKey (l : List (String × ServerEntry)) (k : String)
    (v : ServerEntry) :
    (setKey l k v).map Prod.fst = l.map Prod.fst ∨
    (setKey l k v).map Prod.fst = l.map Prod.fst ++ [k] := by
  unfold setKey
  split
  case isTrue h =>
    left
    rw [List.map_map]
    apply List.map_congr_left
    intro q _
    by_cases hqk : q.1 = k <;> simp [hqk]
  case isFalse h =>
    right
    simp

/-- Dict assignment preserves distinctness of the keys. -/
theorem keysNodup_setKey {l : List (String × ServerEntry)} {k : String}
    {v : ServerEntry} (h : (l.map Prod.fst).Nodup) :
    ((setKey l k v).map Prod.fst).Nodup := by
  unfold setKey
  split
  case isTrue hk =>
    have : ((l.map (fun p => if p.1 = k then (k, v) else p)).map Prod.fst)
        = l.map Prod.fst := by
      rw [List.map_map]
      apply List.map_congr_left
      intro q _
      by_cases hqk : q.1 = k <;> simp [hqk]
    rw [this]
    exact h
  case isFalse hk =>
    rw [List.map_append]
    refine List.Nodup.append h (List.nodup_singleton k) ?_
    intro a ha hb
    have hak : a = k := by simpa using hb
    subst hak
    rcases List.mem_map.1 ha with ⟨q, hq, hqk⟩
    exact hk (List.any_eq_true.2 ⟨q, hq, by simp [hqk]⟩)

/-- Clearing every default flag leaves the key list unchanged. -/
theorem keys_unflag (l : List (String × ServerEntry)) :
    ((l.map (fun p => (p.1, { p.2 with default := false }))).map Prod.fst)
      = l.map Prod.fst := by
  rw [List.map_map]
  rfl

/-- After clearing every default flag, no element is flagged. -/
theorem mem_unflag_not_default {l : List (String × ServerEntry)}
    {p : String × ServerEntry}
    (hp : p ∈ l.map (fun q => (q.1, { q.2 with default := false }))) :
    p.2.default = false := by
  rcases List.mem_map.1 hp with ⟨q, _, hfq⟩
  rw [← hfq]

/-- Removing a key preserves distinctness of the keys. -/
theorem keysNodup_filter {l : List (String × ServerEntry)}
    (h : (l.map Prod.fst).Nodup) (f : String × ServerEntry → Bool) :
    ((l.filter f).map Prod.fst).Nodup :=
  h.sublist ((List.filter_sublist l).map Prod.fst)

/-- `add_server` preserves the store invariant. -/
theorem storeInv_add {cfg : Config} (h : StoreInv cfg)
    (name url key : String) (sd : Bool) :
    StoreInv (add_server cfg name url key sd) := by
  obtain ⟨hnd, hfp⟩ := h
  cases sd with
  | true =>
    simp only [add_server, if_true]
    constructor
    · apply keysNodup_setKey
      rw [keys_unflag]
      exact keysNodup_setKey hnd
    · intro p hp hflag
      rcases mem_setKey hp with rfl | ⟨hp2, _⟩
      · rfl
      · exact absurd hflag (by simp [mem_unflag_not_default hp2])
  | false =>
    simp only [add_server, Bool.false_eq_true, if_false]
    split
    case isTrue hc =>
      constructor
      · exact keysNodup_setKey (keysNodup_setKey hnd)
      · intro p hp hflag
        rcases mem_setKey hp with rfl | ⟨hp2, hne⟩
        · rfl
        · exfalso
          rcases List.length_eq_one.1 hc.2 with ⟨a, ha⟩
          have hself := self_mem_setKey cfg.servers name
            { url := url, api_key := key, default := false }
          rw [ha] at hp2 hself
          simp only [List.mem_singleton] at hp2 hself
          rw [hp2] at hne
          exact hne (by rw [← hself])
    case isFalse hc =>
      constructor
      · exact keysNodup_setKey hnd
      · intro p hp hflag
        rcases mem_setKey hp with rfl | ⟨hp2, _⟩
        · simp at hflag
        · exact hfp p hp2 hflag

/-- `remove_server` preserves the store invariant. -/
theorem storeInv_remove {cfg : Config} (h : StoreInv cfg) (name : String) :
    StoreInv (remove_server cfg name).2 := by
  obtain ⟨hnd, hfp⟩ := h
  simp only [remove_server]
  split
  case isTrue hk =>
    exact ⟨hnd, hfp⟩
  case isFalse hk =>
    split
    case isTrue hwd =>
      split
      case h_1 first hfirst =>
        constructor
        · exact keysNodup_setKey (keysNodup_filter hnd _)
        · intro p hp hflag
          rcases mem_setKey hp with rfl | ⟨hp2, hne⟩
          · rfl
          · exfalso
            have hpl : p ∈ cfg.servers ∧ ¬ p.1 = name := by
              have := List.mem_filter.1 hp2
              exact ⟨this.1, by simpa using this.2⟩
            have hfl : p ∈ cfg.servers.filter (fun q => ¬ q.1 = name) := hp2
            -- the removed entry was the default, so it was pointed at
            rcases hfind : cfg.servers.find? (fun q => q.1 = name) with _ | q
            · rw [hfind] at hwd
              exact absurd hwd (by decide)
            · rw [hfind] at hwd
              simp at hwd
              have hqmem := List.mem_of_find?_eq_some hfind
              have hqname : q.1 = name := by
                have := List.find?_some hfind
                simpa using this
              have h1 := hfp q hqmem hwd
              have h2 := hfp p hpl.1 hflag
              rw [h1] at h2
              have : q.1 = p.1 := by injection h2
              exact hpl.2 (by rw [← this, hqname])
      case h_2 hfirst =>
        have hnil : cfg.servers.filter (fun q => ¬ q.1 = name) = [] :=
          List.head?_eq_none_iff.1 hfirst
        constructor
        · exact keysNodup_filter hnd _
        · intro p hp hflag
          dsimp only at hp
          rw [hnil] at hp
          exact absurd hp (List.not_mem_nil p)
    case isFalse hwd =>
      constructor
      · exact keysNodup_filter hnd _
      · intro p hp hflag
        exact hfp p (List.mem_filter.1 hp).1 hflag

/-- `set_default_server` preserves the store invariant. -/
theorem storeInv_setDefault {cfg : Config} (h : StoreInv cfg)
    (name : String) : StoreInv (set_default_server cfg name).2 := by
  obtain ⟨hnd, hfp⟩ := h
  unfold set_default_server
  split
  case isTrue hk =>
    exact ⟨hnd, hfp⟩
  case isFalse hk =>
    constructor
    · apply keysNodup_setKey
      rw [keys_unflag]
      exact hnd
    · intro p hp hflag
      rcases mem_setKey hp with rfl | ⟨hp2, _⟩
      · rfl
      · exact absurd hflag (by simp [mem_unflag_not_default hp2])

/-- Every single mutation preserves the store invariant. -/
theorem storeInv_applyMutation {cfg : Config} (h : StoreInv cfg)
    (m : Mutation) : StoreInv (applyMutation cfg m) := by
  cases m with
  | add name url key sd => exact storeInv_add h name url key sd
  | remove name => exact storeInv_remove h name
  | setDefault name => exact storeInv_setDefault h name

/-- Every mutation sequence preserves the store invariant. -/
theorem storeInv_applyMutations {cfg : Config} (h : StoreInv cfg)
    (ms : List Mutation) : StoreInv (applyMutations cfg ms) := by
  induction ms generalizing cfg with
  | nil => exact h
  | cons m ms ih => exact ih (storeInv_applyMutation h m)

/-- The empty store satisfies the invariant. -/
theorem storeInv_empty : StoreInv emptyConfig :=
  ⟨List.nodup_nil, fun p hp _ => absurd hp (List.not_mem_nil p)⟩

/-- Under the invariant, at most one profile is flagged default. -/
theorem atMostOne_of_storeInv {cfg : Config} (h : StoreInv cfg) :
    atMostOneDefault cfg := by
  obtain ⟨hnd, hfp⟩ := h
  unfold atMostOneDefault
  rcases hfl : cfg.servers.filter (fun p => p.2.default) with _ | ⟨a, tl⟩
  · rw [hfl]
    simp
  · rcases tl with _ | ⟨b, tl2⟩
    · rw [hfl]
      simp
    · exfalso
      have ha : a ∈ cfg.servers.filter (fun p => p.2.default) := by
        rw [hfl]; simp
      have hb : b ∈ cfg.servers.filter (fun p => p.2.default) := by
        rw [hfl]; simp
      have ha2 := List.mem_filter.1 ha
      have hb2 := List.mem_filter.1 hb
      have hpa := hfp a ha2.1 ha2.2
      have hpb := hfp b hb2.1 hb2.2
      have hab : a.1 = b.1 := by
        rw [hpa] at hpb
        injection hpb
      have hsub : List.Sublist ((cfg.servers.filter
          (fun p => p.2.default)).map Prod.fst) (cfg.servers.map Prod.fst) :=
        (List.filter_sublist cfg.servers).map Prod.fst
      have hndf := hnd.sublist hsub
      rw [hfl] at hndf
      simp only [List.map_cons, List.nodup_cons, List.mem_cons] at hndf
      exact hndf.1 (Or.inl hab)

/-- C8 (amended): after any sequence of store mutations starting from
the empty store, at most one profile has `default = true`, and any
profile flagged default is the one `default_server` names.  (The
original claim's converse — that a non-null `default_server` always
names a flagged profile — fails; see the counterexample.) -/
theorem store_default_invariant_amended (ms : List Mutation) :
    atMostOneDefault (applyMutations emptyConfig ms) ∧
    ∀ p ∈ (applyMutations emptyConfig ms).servers, p.2.default = true →
      (applyMutations emptyConfig ms).default_server = some p.1 := by
  have h := storeInv_applyMutations storeInv_empty ms
  exact ⟨atMostOne_of_storeInv h, h.2⟩

/-- Witness for the amended C8 invariant at a concrete one-add
sequence: profile "A" is flagged default and named by
`default_server`. -/
theorem store_default_invariant_amended_witness :
    atMostOneDefault (applyMutations emptyConfig [.add "A" "u" "k" true]) ∧
    (applyMutations emptyConfig
      [.add "A" "u" "k" true]).default_server = some "A" :=
  ⟨(store_default_invariant_amended [.add "A" "u" "k" true]).1,
   (store_default_invariant_amended [.add "A" "u" "k" true]).2
     ("A", { url := "u", api_key := "k", default := true }) (by decide) rfl⟩

end OhUtils
